import Mathlib

/-!
Shallow embedding of the Jira/Claude webhook-automation repository
(webhook processor, stage tracker, classification engine, testing
evaluator) together with proofs of the behavioural claims about it.

JavaScript strings are modelled as Lean `String`, JS arrays as `List`,
fallible external calls (tracker HTTP, AI adapters, filesystem) as
oracle functions returning `Except JsError _` supplied by an `Env`
record, and the side-effecting phase handlers as computations in a
state monad `Pr` that records a trace of external calls.
-/

namespace JiraClaude

/-! ## String helpers (JS `String.prototype` operations) -/

/-- `startsWithL s pat` : does the char list `s` start with `pat`? -/
def startsWithL : List Char → List Char → Bool
  | _, [] => true
  | [], _ :: _ => false
  | c :: cs, p :: ps => c == p && startsWithL cs ps

/-- `containsL s pat` : does `s` contain `pat` as a contiguous run?
Models JS `s.includes(pat)`. -/
def containsL : List Char → List Char → Bool
  | [], pat => startsWithL [] pat
  | s@(_ :: cs), pat => startsWithL s pat || containsL cs pat

/-- JS `s.includes(pat)`. -/
def strContains (s pat : String) : Bool :=
  containsL s.toList pat.toList

/-- JS `s.trim()` on a char list: strip whitespace from both ends. -/
def trimL (s : List Char) : List Char :=
  ((s.dropWhile Char.isWhitespace).reverse.dropWhile Char.isWhitespace).reverse

/-- Lower-casing for the regex `i` flag (ASCII section names only). -/
def lowerL (s : List Char) : List Char :=
  s.map Char.toLower

/-! ## Data model: issues, labels, webhook payloads -/

/-- A Jira label as delivered in a payload: either a plain string or an
object carrying a `name` field.  `updateStageLabel` handles both shapes
(`typeof label === 'string' ? label : label.name`), while
`getHighestStageCompleted` always reads `label.name`. -/
inductive Label where
  | str (s : String)
  | obj (name : String)
deriving DecidableEq, Repr

/-- `label.name` as JS evaluates it: a plain JS string has no `name`
property, so the access yields `undefined` (modelled `none`). -/
def jsLabelNameProp : Label → Option String
  | .str _ => none
  | .obj n => some n

/-- `typeof label === 'string' ? label : label.name` from
`updateStageLabel`. -/
def labelName : Label → String
  | .str s => s
  | .obj n => n

structure IssueFields where
  summary : String
  description : String
  statusName : String
  issuetypeName : String
  labels : List Label
deriving DecidableEq, Repr

structure Issue where
  key : String
  fields : IssueFields
deriving DecidableEq, Repr

structure ChangeItem where
  field : String
deriving DecidableEq, Repr

structure Changelog where
  items : Option (List ChangeItem)
deriving DecidableEq, Repr

/-- The inbound webhook body: `webhookEvent` tag, optional embedded
issue snapshot, optional changelog. -/
structure WebhookPayload where
  webhookEvent : String
  issue : Option Issue
  changelog : Option Changelog
deriving DecidableEq, Repr

inductive Classification where
  | initial_inquiry
  | deliverable_criteria
  | testing_criteria
  | ignore
deriving DecidableEq, Repr

/-! ## Classification engine -/

/-- Marker substrings scanned by `hasClaudeMarkers`. -/
def claudeMarkers : List String :=
  ["Claude Generated",
   "*Touched by Claude*",
   "Deliverable Criteria:",
   "Implementation:",
   "*Generated by Claude Automation System*"]

/-- `hasClaudeMarkers(summary, description)`: any marker occurring in
the summary or the description. -/
def hasClaudeMarkers (summary description : String) : Bool :=
  claudeMarkers.any (fun m => strContains summary m || strContains description m)

def readyStatuses : List String :=
  ["Ready for Implementation", "In Progress", "Ready for Development"]

/-- `isReadyForImplementation(webhookPayload)` reads only the issue's
status name; embedded over that status. -/
def isReadyForImplementation (status : String) : Bool :=
  readyStatuses.contains status

/-- `classifyIssueType(webhookPayload)`.  The orchestrator only calls
it after validation guarantees the issue is present, so the embedding
takes the issue directly.  `summary`/`description` already carry the
JS `|| ''` defaults. -/
def classifyIssueType (issue : Issue) : Classification :=
  let summary := issue.fields.summary
  let status := issue.fields.statusName
  if !(hasClaudeMarkers summary issue.fields.description) then
    .initial_inquiry
  else if strContains summary "Deliverable Criteria:" then
    if status == "Testing Criteria" then .testing_criteria
    else if isReadyForImplementation status then .deliverable_criteria
    else .ignore
  else .ignore

def supportedEvents : List String :=
  ["jira:issue_created", "jira:issue_updated"]

def actionableStatuses : List String :=
  ["Ready for Implementation", "In Progress", "Ready for Development", "Testing Criteria"]

/-- `isValidWebhookEvent(webhookPayload)`.  A missing issue or an
empty (falsy) key fails; `changelog?.items?.some(...)` is `false` when
either level is absent. -/
def isValidWebhookEvent (p : WebhookPayload) : Bool :=
  if !(supportedEvents.contains p.webhookEvent) then false
  else
    match p.issue with
    | none => false
    | some issue =>
      if issue.key == "" then false
      else
        let issueType := issue.fields.issuetypeName
        let status := issue.fields.statusName
        if !(["Story", "Task"].contains issueType) then false
        else if p.webhookEvent == "jira:issue_updated" then
          let isStatusChange :=
            match p.changelog with
            | none => false
            | some cl =>
              match cl.items with
              | none => false
              | some items => items.any (fun it => it.field == "status")
          if !isStatusChange then false
          else
            let summary := issue.fields.summary
            if strContains summary "Deliverable Criteria:" then
              actionableStatuses.contains status
            else false
        else true

/-! ## Stage tracker -/

/-- `getHighestStageCompleted(issue)`: maps each label through the JS
`label.name` property access (yielding `undefined` for plain-string
labels) and looks the stage tags up in the resulting array. -/
def getHighestStageCompleted (issue : Issue) : String :=
  let labels := issue.fields.labels.map jsLabelNameProp
  if labels.contains (some "claude-stage-tested") then "tested"
  else if labels.contains (some "claude-stage-implemented") then "implemented"
  else if labels.contains (some "claude-stage-analyzed") then "analyzed"
  else "none"

def stageLabels : List String :=
  ["claude-stage-analyzed", "claude-stage-implemented", "claude-stage-tested"]

/-- The pure label-set transformation inside `updateStageLabel`:
filter out the three stage tags, normalise survivors to their names,
append the tag for `newStage`. -/
def updateStageLabels (currentLabels : List Label) (newStage : String) : List String :=
  let newLabel := "claude-stage-" ++ newStage
  let nonStageLabels := currentLabels.filter (fun l => !(stageLabels.contains (labelName l)))
  nonStageLabels.map labelName ++ [newLabel]

/-! ## Original-issue key extraction

`extractOriginalIssueKey` applies four JS regexes in order.  Each is
modelled as a leftmost scan with greedy maximal character runs; for
these particular patterns backtracking is vacuous (shortening a
maximal `[A-Z]`/`[A-Za-z]`/`\d` run leaves the next character in the
same class, which can never satisfy the following `-` literal), so
greedy-maximal matching is exactly the JS semantics. -/

/-- Try a position-anchored matcher at every suffix, leftmost first. -/
def scanFirst (m : List Char → Option (List Char)) : List Char → Option (List Char)
  | [] => m []
  | s@(_ :: cs) => (m s).orElse (fun _ => scanFirst m cs)

/-- `/(PCP1-\d+)/` anchored at a position. -/
def matchPCP1At (s : List Char) : Option (List Char) :=
  if startsWithL s "PCP1-".toList then
    let ds := (s.drop 5).takeWhile Char.isDigit
    if ds.length ≥ 1 then some ("PCP1-".toList ++ ds) else none
  else none

/-- `/([A-Z]{2,}-\d+)/` anchored at a position. -/
def matchGenericAt (s : List Char) : Option (List Char) :=
  let ups := s.takeWhile Char.isUpper
  let rest := s.dropWhile Char.isUpper
  if ups.length ≥ 2 then
    match rest with
    | '-' :: r2 =>
      let ds := r2.takeWhile Char.isDigit
      if ds.length ≥ 1 then some (ups ++ '-' :: ds) else none
    | _ => none
  else none

/-- `/([A-Za-z]+\d*-\d+)/` anchored at a position. -/
def matchPermissiveAt (s : List Char) : Option (List Char) :=
  let als := s.takeWhile Char.isAlpha
  let r1 := s.dropWhile Char.isAlpha
  if als.length ≥ 1 then
    let ds0 := r1.takeWhile Char.isDigit
    let r2 := r1.dropWhile Char.isDigit
    match r2 with
    | '-' :: r3 =>
      let ds := r3.takeWhile Char.isDigit
      if ds.length ≥ 1 then some (als ++ ds0 ++ '-' :: ds) else none
    | _ => none
  else none

/-- `/\*\*Original Issue:\*\* ([A-Z]+-\d+)/` anchored at a position;
the returned value is the captured group (the key alone). -/
def matchOriginalIssueAt (s : List Char) : Option (List Char) :=
  if startsWithL s "**Original Issue:** ".toList then
    let rest := s.drop 20
    let ups := rest.takeWhile Char.isUpper
    let r1 := rest.dropWhile Char.isUpper
    if ups.length ≥ 1 then
      match r1 with
      | '-' :: r2 =>
        let ds := r2.takeWhile Char.isDigit
        if ds.length ≥ 1 then some (ups ++ '-' :: ds) else none
      | _ => none
    else none
  else none

/-- `summary.match(/(PCP1-\d+)/)` and extraction of group 1. -/
def matchProjectSpecific (s : String) : Option String :=
  (scanFirst matchPCP1At s.toList).map List.asString

/-- `summary.match(/([A-Z]{2,}-\d+)/)` and extraction of group 1. -/
def matchGeneric (s : String) : Option String :=
  (scanFirst matchGenericAt s.toList).map List.asString

/-- `summary.match(/([A-Za-z]+\d*-\d+)/)` and extraction of group 1. -/
def matchPermissive (s : String) : Option String :=
  (scanFirst matchPermissiveAt s.toList).map List.asString

/-- `description.match(/\*\*Original Issue:\*\* ([A-Z]+-\d+)/)` and
extraction of group 1. -/
def matchDescOriginalIssue (s : String) : Option String :=
  (scanFirst matchOriginalIssueAt s.toList).map List.asString

/-- `extractOriginalIssueKey(summary, description)`.  The JS guards
`if (summary)` / `if (description)` skip the blocks for a falsy
(empty) string; `null` on total failure is modelled as `none`. -/
def extractOriginalIssueKey (summary description : String) : Option String :=
  let fromSummary :=
    if summary == "" then none
    else
      match matchProjectSpecific summary with
      | some key => some key
      | none =>
        match matchGeneric summary with
        | some key => some key
        | none => matchPermissive summary
  match fromSummary with
  | some key => some key
  | none =>
    if description == "" then none
    else matchDescOriginalIssue description

/-! ## Section extraction (two independent copies in the source)

Both copies share the regex `## ${sectionName}([\s\S]*?)(?=##|$)` with
the `i` flag: find the leftmost case-insensitive occurrence of the
heading, then lazily capture up to (excluding) the next `##` or the
end of the text.  The section names used are plain words with no
regex metacharacters. -/

/-- Scan for the first case-insensitive occurrence of `pat`; return
the remainder of the text after it. -/
def findAfterCI (pat : List Char) : List Char → Option (List Char)
  | [] => if startsWithL [] (lowerL pat) then some [] else none
  | s@(_ :: cs) =>
    if startsWithL (lowerL s) (lowerL pat) then some (s.drop pat.length)
    else findAfterCI pat cs

/-- Lazy capture with lookahead `(?=##|$)`: keep characters up to the
first occurrence of `##`. -/
def takeUntilHashHash : List Char → List Char
  | [] => []
  | s@(c :: cs) => if startsWithL s "##".toList then [] else c :: takeUntilHashHash cs

/-- The shared heading-matching part of both `extractSection` copies:
`some body` iff the regex matches, where `body` is capture group 1. -/
def extractSectionBody (text sectionName : String) : Option (List Char) :=
  (findAfterCI ("## " ++ sectionName).toList text.toList).map takeUntilHashHash

/-- JS `split('\n')`. -/
def splitOnNl : List Char → List (List Char)
  | [] => [[]]
  | c :: cs =>
    if c == '\n' then [] :: splitOnNl cs
    else
      match splitOnNl cs with
      | [] => [[c]]
      | l :: ls => (c :: l) :: ls

/-- JS `line.replace('•', '')`: remove the first occurrence of `•`. -/
def replaceFirstBullet : List Char → List Char
  | [] => []
  | c :: cs => if c == '•' then cs else c :: replaceFirstBullet cs

/-- The webhook processor's `extractSection(text, sectionName)`:
keep lines whose trimmed form starts with `•`, delete the first `•`
anywhere in the raw line, trim. -/
def extractSection (text sectionName : String) : List String :=
  match extractSectionBody text sectionName with
  | none => []
  | some body =>
    ((splitOnNl body).filter (fun line => startsWithL (trimL line) ['•'])).map
      (fun line => (trimL (replaceFirstBullet line)).asString)

/-- JS `line.replace(/^[•-]\s*/, '')`: strip one leading `•` or `-`
plus the following whitespace run, only when anchored at the start. -/
def stripLeadingBullet (line : List Char) : List Char :=
  match line with
  | c :: cs => if c == '•' || c == '-' then cs.dropWhile Char.isWhitespace else line
  | [] => line

/-- The testing evaluator's `extractSection(text, sectionName)`:
also accepts `-` bullets, strips only an anchored leading bullet, and
drops empty items. -/
def evalExtractSection (text sectionName : String) : List String :=
  match extractSectionBody text sectionName with
  | none => []
  | some body =>
    (((splitOnNl body).filter
        (fun line => startsWithL (trimL line) ['•'] || startsWithL (trimL line) ['-'])).map
      (fun line => (trimL (stripLeadingBullet line)).asString)).filter
      (fun item => item.length > 0)

/-- `extractRequirementsFromCriteria(criteriaIssue)`. -/
structure Requirements where
  functionalRequirements : List String
  technicalRequirements : List String
  acceptanceCriteria : List String
  validationTests : List String
  definitionOfDone : List String
deriving DecidableEq, Repr

def extractRequirementsFromCriteria (criteriaIssue : Issue) : Requirements :=
  let description := criteriaIssue.fields.description
  { functionalRequirements := extractSection description "Functional Requirements"
    technicalRequirements := extractSection description "Technical Requirements"
    acceptanceCriteria := extractSection description "Acceptance Criteria"
    validationTests := extractSection description "Validation Tests"
    definitionOfDone := extractSection description "Definition of Done" }

/-- `validateClaudeGeneratedCriteria(issue)`. -/
def validateClaudeGeneratedCriteria (issue : Issue) : Bool :=
  let summary := issue.fields.summary
  let description := issue.fields.description
  if !(strContains summary "Deliverable Criteria:") then false
  else if !(strContains description "*Generated by Claude Automation System*") then false
  else true

/-! ## Testing evaluator: final scoring -/

structure CategoryEval where
  score : Int
deriving DecidableEq, Repr

structure EvalError where
  severity : String
  type : String
  description : String
deriving DecidableEq, Repr

structure OverallAssessment where
  summary : String
  readyForDeployment : Bool
  majorConcerns : List String
  recommendations : List String
deriving DecidableEq, Repr

/-- The parsed Claude evaluation consumed by `calculateFinalScore`. -/
structure Evaluation where
  requirementsCoverage : CategoryEval
  qualityCraftsmanship : CategoryEval
  usabilityPracticality : CategoryEval
  completenessPolish : CategoryEval
  errors : List EvalError
  overallAssessment : OverallAssessment
deriving DecidableEq, Repr

structure ScoreBreakdown where
  requirementsCoverage : Int
  qualityCraftsmanship : Int
  usabilityPracticality : Int
  completenessPolish : Int
deriving DecidableEq, Repr

structure FinalScore where
  overallScore : Int
  maxScore : Int
  scorePercentage : Int
  errorCount : Nat
  criticalErrors : Nat
  highErrors : Nat
  blockingErrors : Nat
  meetsCriteria : Bool
  passingScore : Int
  readyForDeployment : Bool
  coreRequirementsMet : Bool
  breakdown : ScoreBreakdown
deriving DecidableEq, Repr

/-- `calculateFinalScore(evaluation)` from the testing evaluator. -/
def calculateFinalScore (evaluation : Evaluation) : FinalScore :=
  let scores : List Int :=
    [evaluation.requirementsCoverage.score,
     evaluation.qualityCraftsmanship.score,
     evaluation.usabilityPracticality.score,
     evaluation.completenessPolish.score]
  let overallScore := scores.foldl (· + ·) 0
  let errorCount := evaluation.errors.length
  let criticalErrors := (evaluation.errors.filter (fun e => e.severity == "CRITICAL")).length
  let highErrors := (evaluation.errors.filter (fun e => e.severity == "HIGH")).length
  let passingScoreConst : Int := 80
  let hasBlockingErrors := criticalErrors > 0 || highErrors > 0
  let coreRequirementsMet := evaluation.requirementsCoverage.score ≥ 20
  let meetsCriteria :=
    decide (overallScore ≥ passingScoreConst) &&
    !hasBlockingErrors &&
    decide coreRequirementsMet &&
    evaluation.overallAssessment.readyForDeployment
  { overallScore := overallScore
    maxScore := 100
    scorePercentage := overallScore
    errorCount := errorCount
    criticalErrors := criticalErrors
    highErrors := highErrors
    blockingErrors := criticalErrors + highErrors
    meetsCriteria := meetsCriteria
    passingScore := passingScoreConst
    readyForDeployment := evaluation.overallAssessment.readyForDeployment
    coreRequirementsMet := decide coreRequirementsMet
    breakdown :=
      { requirementsCoverage := evaluation.requirementsCoverage.score
        qualityCraftsmanship := evaluation.qualityCraftsmanship.score
        usabilityPracticality := evaluation.usabilityPracticality.score
        completenessPolish := evaluation.completenessPolish.score } }

/-! ## External collaborators and adapter payloads

The AI adapters and the tracker/filesystem clients are external
collaborators (spec §1/§6); their results are supplied by an `Env`
oracle below.  Adapter payload structures carry the fields the
orchestrator dereferences; purely narrative template text (comment
bodies, generated markdown documents, usage instructions) is inert
operator-facing prose and is recorded by call site and title rather
than replayed verbatim. -/

structure DeliveryCriteriaLists where
  functionalRequirements : List String
  technicalRequirements : List String
  qualityRequirements : List String
  acceptanceCriteria : List String
  definitionOfDone : List String
deriving DecidableEq, Repr

structure ValidationTests where
  unitTests : List String
  integrationTests : List String
  edgeCases : List String
  performanceTests : List String
deriving DecidableEq, Repr

structure TechnicalApproach where
  architecture : String
  components : List String
  dependencies : List String
deriving DecidableEq, Repr

structure EstimatedEffort where
  storyPoints : Int
  hours : Int
  complexity : String
deriving DecidableEq, Repr

/-- Parsed output of the requirements-analysis adapter. -/
structure AnalysisResult where
  deliveryCriteria : DeliveryCriteriaLists
  validationTests : ValidationTests
  technicalApproach : TechnicalApproach
  estimatedEffort : EstimatedEffort
deriving DecidableEq, Repr

structure Implementation where
  type : String
  title : String
deriving DecidableEq, Repr

/-- Parsed output of the implementation adapter (deliverable bodies
are consumed only by the artifact store oracle). -/
structure ImplementationResult where
  implementation : Implementation
deriving DecidableEq, Repr

structure ArtifactsResult where
  directory : String
  files : List String
  implementationType : String
deriving DecidableEq, Repr

structure EffortDetails where
  storyPoints : Option Nat
  complexity : Option String
  hours : Option Nat
deriving DecidableEq, Repr

structure DeliveryCriteria where
  functionalRequirements : List String
  technicalRequirements : List String
  acceptanceCriteria : List String
  validationTests : List String
  definitionOfDone : List String
  estimatedEffort : EffortDetails
deriving DecidableEq, Repr

/-- `generateRecommendation`'s result; the APPROVED branch carries no
`criticalIssues`/`majorConcerns` fields (`undefined`, modelled
`none`). -/
structure Recommendation where
  status : String
  action : String
  criticalIssues : Option (List EvalError)
  majorConcerns : Option (List String)
deriving DecidableEq, Repr

structure EvaluationResult where
  originalIssue : String
  criteriaIssue : String
  implementationType : String
  evaluation : Evaluation
  finalScore : FinalScore
  recommendation : Recommendation
deriving DecidableEq, Repr

structure Transition where
  id : String
  name : String
deriving DecidableEq, Repr

/-! ## Evaluator helpers -/

def digitsToNat (ds : List Char) : Nat :=
  ds.foldl (fun n c => 10 * n + (c.toNat - '0'.toNat)) 0

/-- `\w` of `/(\w+)/`. -/
def isWordChar (c : Char) : Bool :=
  c.isAlpha || c.isDigit || c == '_'

/-- `/\*\*Story Points:\*\* (\d+)/`-style matcher: the literal label,
then a maximal nonempty run of `cls` characters. -/
def matchLabelledRunAt (label : List Char) (cls : Char → Bool) (s : List Char) :
    Option (List Char) :=
  if startsWithL s label then
    let run := (s.drop label.length).takeWhile cls
    if run.length ≥ 1 then some run else none
  else none

/-- `extractEffortDetails(text)` from the testing evaluator. -/
def extractEffortDetails (text : String) : EffortDetails :=
  let sp := scanFirst (matchLabelledRunAt "**Story Points:** ".toList Char.isDigit) text.toList
  let cx := scanFirst (matchLabelledRunAt "**Complexity:** ".toList isWordChar) text.toList
  let hr := scanFirst (matchLabelledRunAt "**Hours:** ".toList Char.isDigit) text.toList
  { storyPoints := sp.map digitsToNat
    complexity := cx.map List.asString
    hours := hr.map digitsToNat }

/-- `extractDeliveryCriteria(criteriaIssue)` from the testing
evaluator (uses the evaluator's own `extractSection`). -/
def extractDeliveryCriteria (criteriaIssue : Issue) : DeliveryCriteria :=
  let description := criteriaIssue.fields.description
  { functionalRequirements := evalExtractSection description "Functional Requirements"
    technicalRequirements := evalExtractSection description "Technical Requirements"
    acceptanceCriteria := evalExtractSection description "Acceptance Criteria"
    validationTests := evalExtractSection description "Validation Tests"
    definitionOfDone := evalExtractSection description "Definition of Done"
    estimatedEffort := extractEffortDetails description }

/-- `generateRecommendation(finalScore, evaluation)`. -/
def generateRecommendation (finalScore : FinalScore) (evaluation : Evaluation) :
    Recommendation :=
  if finalScore.meetsCriteria then
    { status := "APPROVED", action := "READY_FOR_DEPLOYMENT",
      criticalIssues := none, majorConcerns := none }
  else
    { status := "NEEDS_WORK", action := "RETURN_FOR_REVISION",
      criticalIssues := some (evaluation.errors.filter (fun e => e.severity == "CRITICAL")),
      majorConcerns := some evaluation.overallAssessment.majorConcerns }

/-- `getCompletionStatus(implementationType)`:
`statusMap[implementationType] || 'Implementation Complete'`. -/
def getCompletionStatus (implementationType : String) : String :=
  (([("code", "Code Complete"),
     ("documentation", "Documentation Complete"),
     ("analysis", "Analysis Complete"),
     ("process", "Process Complete"),
     ("other", "Implementation Complete")] :
      List (String × String)).lookup implementationType).getD "Implementation Complete"

/-! ## The effect-trace monad

Each phase handler is a computation `Pr α`: a function from the
effect trace accumulated so far to a JS-style result (normal return
or thrown exception, carrying its message) and the extended trace.
Every external call appends an `Effect` to the trace before its
oracle-supplied result is consulted, so "zero external calls" is
exactly "the trace is unchanged". -/

/-- One external call made by the orchestrator. -/
inductive Effect where
  | trackerGet (key : String)
  | trackerCreate (projectKey issueType summary : String)
  | trackerUpdate (key : String)
  | trackerComment (key title : String)
  | trackerLink (keyA keyB : String)
  | trackerTransitions (key : String)
  | trackerTransition (key transitionId : String)
  | adapterAnalyze (key : String)
  | adapterImplement (originalKey : String)
  | adapterEvaluate (originalKey : String)
  | artifactWrite (originalKey : String)
  | artifactRead (originalKey : String)
deriving DecidableEq, Repr

def Pr (α : Type) : Type :=
  List Effect → Except String α × List Effect

def Pr.pure (a : α) : Pr α := fun es => (.ok a, es)

def Pr.bind (x : Pr α) (f : α → Pr β) : Pr β := fun es =>
  match x es with
  | (.ok a, es1) => f a es1
  | (.error e, es1) => (.error e, es1)

instance : Monad Pr where
  pure := Pr.pure
  bind := Pr.bind

/-- JS `throw new Error(msg)`. -/
def throwErr (msg : String) : Pr α := fun es => (.error msg, es)

/-- JS `try { x } catch (e) { handler(e) }`. -/
def tryCatchPr (x : Pr α) (handler : String → Pr α) : Pr α := fun es =>
  match x es with
  | (.ok a, es1) => (.ok a, es1)
  | (.error e, es1) => handler e es1

/-- Perform one external call: record the effect, then return the
oracle-supplied result (value or thrown error). -/
def liftCall (e : Effect) (r : Except String α) : Pr α := fun es =>
  (r, es ++ [e])

/-- What `updateIssue` is called with at the three call sites. -/
inductive UpdateFields where
  | description (d : String)
  | labels (ls : List String)
  | summaryAndDescription (s d : String)
deriving DecidableEq, Repr

/-- Oracles for every external collaborator: each field gives the
outcome of one kind of external call as a function of its arguments. -/
structure Env where
  now : String
  getIssue : String → Except String Issue
  updateIssue : String → UpdateFields → Except String Unit
  addComment : String → String → Except String Unit
  createIssue : String → String → String → Except String Issue
  linkIssues : String → String → Except String Unit
  getAvailableTransitions : String → Except String (List Transition)
  transitionIssue : String → String → Except String Unit
  analyzeRequirements : Issue → Except String AnalysisResult
  generateImplementation : Issue → String → Requirements → Except String ImplementationResult
  createArtifacts : String → ImplementationResult → Except String ArtifactsResult
  loadImplementation : String → Except String ImplementationResult
  loadArtifacts : String → Except String (List (String × String))
  claudeEvaluate : String → Issue → ImplementationResult → List (String × String) →
    DeliveryCriteria → Except String Evaluation
  saveEvaluation : String → EvaluationResult → Except String Unit

/-- `jiraApi.addComment(key, formatComment(title, body, footer))`;
the trace records the target and the comment title. -/
def addCommentPr (env : Env) (key title : String) : Pr Unit :=
  liftCall (.trackerComment key title) (env.addComment key title)

/-- `updateStageLabel(issueKey, newStage)`: fetch, rewrite the label
set through `updateStageLabels`, write back; any failure is logged
and swallowed (never rethrown). -/
def updateStageLabel (env : Env) (issueKey newStage : String) : Pr Unit :=
  tryCatchPr
    (do
      let issue ← liftCall (.trackerGet issueKey) (env.getIssue issueKey)
      let updatedLabels := updateStageLabels issue.fields.labels newStage
      liftCall (.trackerUpdate issueKey) (env.updateIssue issueKey (.labels updatedLabels)))
    (fun _ => Pr.pure ())

/-! ## Phase handlers -/

/-- The structured result objects returned by `processWebhook` and
the phase handlers, one constructor per JS object shape. -/
inductive Outcome where
  | ignored (reason : String)
  | skippedImplementation (stage criteriaIssue originalIssue : String)
  | implementationFailed (criteriaIssue originalIssue error : String)
  | artifactsFailed (criteriaIssue originalIssue error : String)
      (implementation : ImplementationResult)
  | implementationGenerated (criteriaIssue originalIssue : String)
      (implementation : ImplementationResult) (artifacts : ArtifactsResult)
  | systemError (criteriaIssue error : String)
  | skippedTesting (criteriaIssue originalIssue : String)
  | evaluationFailedLoad (criteriaIssue originalIssue error : String)
  | evaluationFailedAdapter (criteriaIssue originalIssue error : String)
  | evaluationPassed (criteriaIssue originalIssue : String)
      (result : EvaluationResult) (nextStatus : String)
  | evaluationFailed (criteriaIssue originalIssue : String)
      (result : EvaluationResult) (failureReasons : List EvalError)
  | requirementsAnalyzed (originalIssue criteriaIssue : String)
      (analysis : AnalysisResult)
deriving DecidableEq, Repr

/-- The `try` body of `processDeliverableCriteria`.

`this.hasOverrideLabel` and `this.removeOverrideLabel` are not
defined anywhere in `JiraWebhookProcessor` (or the rest of the
repository), so the JS guards
`this.hasOverrideLabel ? this.hasOverrideLabel(issue, 'reimplement') : false`
and `if (hasForceReimplement && this.removeOverrideLabel)` always
evaluate to `false`: no override label is ever consulted or removed. -/
def processDeliverableCriteriaBody (env : Env) (issue : Issue) : Pr Outcome :=
  if !(validateClaudeGeneratedCriteria issue) then
    throwErr "Deliverable criteria must be Claude-generated to proceed with implementation"
  else
    match extractOriginalIssueKey issue.fields.summary issue.fields.description with
    | none => throwErr "Could not extract original issue key from deliverable criteria"
    | some originalKey =>
      let highestStage := getHighestStageCompleted issue
      let hasForceReimplement := false
      if (highestStage == "implemented" || highestStage == "tested") && !hasForceReimplement then do
        addCommentPr env issue.key "Implementation Skipped"
        Pr.pure (.skippedImplementation highestStage issue.key originalKey)
      else do
        let _originalIssue ← liftCall (.trackerGet originalKey) (env.getIssue originalKey)
        let requirements := extractRequirementsFromCriteria issue
        let implStep ← tryCatchPr
          (do
            let implementation ← liftCall (.adapterImplement originalKey)
              (env.generateImplementation issue originalKey requirements)
            Pr.pure (Sum.inl implementation))
          (fun e => do
            addCommentPr env issue.key "Implementation Generation Failed"
            Pr.pure (Sum.inr (Outcome.implementationFailed issue.key originalKey e)))
        match implStep with
        | .inr failure => Pr.pure failure
        | .inl implementation => do
          let artStep ← tryCatchPr
            (do
              let artifactsResult ← liftCall (.artifactWrite originalKey)
                (env.createArtifacts originalKey implementation)
              Pr.pure (Sum.inl artifactsResult))
            (fun e => do
              addCommentPr env issue.key "Artifacts Creation Failed"
              Pr.pure (Sum.inr (Outcome.artifactsFailed issue.key originalKey e implementation)))
          match artStep with
          | .inr failure => Pr.pure failure
          | .inl artifactsResult => do
            addCommentPr env issue.key "Implementation Generated"
            tryCatchPr (updateStageLabel env issue.key "implemented") (fun _ => Pr.pure ())
            Pr.pure (.implementationGenerated issue.key originalKey implementation artifactsResult)

/-- `processDeliverableCriteria(webhookPayload)`: the body above under
the top-level catch, whose generic error comment is itself an awaited
tracker call (its failure propagates). -/
def processDeliverableCriteria (env : Env) (issue : Issue) : Pr Outcome :=
  tryCatchPr (processDeliverableCriteriaBody env issue)
    (fun e => do
      addCommentPr env issue.key "Automation System Error"
      Pr.pure (.systemError issue.key e))

/-- `evaluateImplementation(criteriaIssue, originalKey, implementationResult)`
from the testing evaluator: load artifacts, extract the grading
rubric, obtain the parsed Claude evaluation, score it; any internal
failure is rethrown with a wrapping message. -/
def evaluateImplementation (env : Env) (criteriaIssue : Issue) (originalKey : String)
    (implementationResult : ImplementationResult) : Pr EvaluationResult :=
  tryCatchPr
    (do
      let artifacts ← liftCall (.artifactRead originalKey) (env.loadArtifacts originalKey)
      let deliveryCriteria := extractDeliveryCriteria criteriaIssue
      let evaluation ← liftCall (.adapterEvaluate originalKey)
        (env.claudeEvaluate originalKey criteriaIssue implementationResult artifacts deliveryCriteria)
      let finalScore := calculateFinalScore evaluation
      Pr.pure
        { originalIssue := originalKey
          criteriaIssue := criteriaIssue.key
          implementationType := implementationResult.implementation.type
          evaluation := evaluation
          finalScore := finalScore
          recommendation := generateRecommendation finalScore evaluation })
    (fun e => throwErr ("Implementation evaluation failed: " ++ e))

/-- `updateToCompletionStatus(criteriaIssueKey, originalKey, evaluationResult)`:
transition by name when available, else rewrite summary/description;
on failure fall back to a completion comment (which may itself
throw). -/
def updateToCompletionStatus (env : Env) (criteriaIssueKey : String)
    (evaluationResult : EvaluationResult) : Pr Unit :=
  let completionStatus := getCompletionStatus evaluationResult.implementationType
  tryCatchPr
    (do
      let transitions ← liftCall (.trackerTransitions criteriaIssueKey)
        (env.getAvailableTransitions criteriaIssueKey)
      match transitions.find? (fun t => t.name == completionStatus) with
      | some completionTransition =>
        liftCall (.trackerTransition criteriaIssueKey completionTransition.id)
          (env.transitionIssue criteriaIssueKey completionTransition.id)
      | none => do
        let currentIssue ← liftCall (.trackerGet criteriaIssueKey) (env.getIssue criteriaIssueKey)
        let newSummary := "✅ " ++ completionStatus ++ ": " ++ currentIssue.fields.summary
        let newDescription := currentIssue.fields.description ++
          "\n\n---\n**COMPLETED - " ++ completionStatus ++ "**\n"
        liftCall (.trackerUpdate criteriaIssueKey)
          (env.updateIssue criteriaIssueKey (.summaryAndDescription newSummary newDescription)))
    (fun _ => addCommentPr env criteriaIssueKey ("Implementation Complete - " ++ completionStatus))

/-- The `try` body of `processTestingCriteria`; the same undefined
`hasOverrideLabel`/`removeOverrideLabel` methods make the `retest`
override permanently `false` here as well. -/
def processTestingCriteriaBody (env : Env) (issue : Issue) : Pr Outcome :=
  if !(validateClaudeGeneratedCriteria issue) then
    throwErr "Testing criteria must be Claude-generated deliverable criteria to proceed with evaluation"
  else
    match extractOriginalIssueKey issue.fields.summary issue.fields.description with
    | none => throwErr "Could not extract original issue key from deliverable criteria"
    | some originalKey =>
      let highestStage := getHighestStageCompleted issue
      let hasForceRetest := false
      if highestStage == "tested" && !hasForceRetest then do
        addCommentPr env issue.key "Testing Skipped"
        Pr.pure (.skippedTesting issue.key originalKey)
      else do
        let loadStep ← tryCatchPr
          (do
            let implementationResult ← liftCall (.artifactRead originalKey)
              (env.loadImplementation originalKey)
            Pr.pure (Sum.inl implementationResult))
          (fun e => do
            addCommentPr env issue.key "Testing Evaluation - ERROR"
            Pr.pure (Sum.inr (Outcome.evaluationFailedLoad issue.key originalKey e)))
        match loadStep with
        | .inr failure => Pr.pure failure
        | .inl implementationResult => do
          let evalStep ← tryCatchPr
            (do
              let evaluationResult ←
                evaluateImplementation env issue originalKey implementationResult
              Pr.pure (Sum.inl evaluationResult))
            (fun e => do
              addCommentPr env issue.key "Testing Evaluation - ERROR"
              Pr.pure (Sum.inr (Outcome.evaluationFailedAdapter issue.key originalKey e)))
          match evalStep with
          | .inr failure => Pr.pure failure
          | .inl evaluationResult => do
            tryCatchPr
              (liftCall (.artifactWrite originalKey)
                (env.saveEvaluation originalKey evaluationResult))
              (fun _ => Pr.pure ())
            tryCatchPr (updateStageLabel env issue.key "tested") (fun _ => Pr.pure ())
            if evaluationResult.finalScore.meetsCriteria then do
              addCommentPr env issue.key "Testing Evaluation - PASSED"
              updateToCompletionStatus env issue.key evaluationResult
              Pr.pure (.evaluationPassed issue.key originalKey evaluationResult
                (getCompletionStatus evaluationResult.implementationType))
            else do
              addCommentPr env issue.key "Testing Evaluation - FAILED"
              Pr.pure (.evaluationFailed issue.key originalKey evaluationResult
                (evaluationResult.recommendation.criticalIssues.getD []))

/-- `processTestingCriteria(webhookPayload)`. -/
def processTestingCriteria (env : Env) (issue : Issue) : Pr Outcome :=
  tryCatchPr (processTestingCriteriaBody env issue)
    (fun e => do
      addCommentPr env issue.key "Testing Evaluation System Error"
      Pr.pure (.systemError issue.key e))

/-- The "touched by Claude" marker block appended to the original
issue's description by `markIssueAsTouchedByClaude`. -/
def touchedByClaudeMarker (env : Env) (analysis : AnalysisResult) : String :=
  "\n\n---\n*Touched by Claude* - Requirements analyzed on " ++ env.now ++
  "\n\n**Analysis Summary:**\n• " ++
  toString analysis.deliveryCriteria.functionalRequirements.length ++
  " functional requirements identified\n• " ++
  toString analysis.validationTests.unitTests.length ++
  " test scenarios defined\n• Estimated effort: " ++
  toString analysis.estimatedEffort.storyPoints ++
  " story points\n\nDetailed delivery criteria created in linked issue."

/-- `markIssueAsTouchedByClaude(issueKey, analysis)`: append the
marker block to the current description, never replacing content. -/
def markIssueAsTouchedByClaude (env : Env) (issueKey : String)
    (analysis : AnalysisResult) : Pr Unit := do
  let issue ← liftCall (.trackerGet issueKey) (env.getIssue issueKey)
  let updatedDescription := issue.fields.description ++ touchedByClaudeMarker env analysis
  liftCall (.trackerUpdate issueKey)
    (env.updateIssue issueKey (.description updatedDescription))

/-- `createDeliverableCriteriaIssue(originalIssue, analysis)`: a Task
in the same project whose summary embeds the original key (the
generated structured description document is consumed only by the
tracker oracle). -/
def createDeliverableCriteriaIssue (env : Env) (originalIssue : Issue)
    (_analysis : AnalysisResult) : Pr Issue := do
  let projectKey := (originalIssue.key.splitOn "-").headD ""
  let summary := "Deliverable Criteria: " ++ originalIssue.key ++ " - " ++
    originalIssue.fields.summary
  liftCall (.trackerCreate projectKey "Task" summary)
    (env.createIssue projectKey "Task" summary)

/-- `processInitialInquiry(webhookPayload)`: analyze, mark, create the
criteria issue, link; failures post an error comment (itself guarded)
and are re-raised to the top-level handler. -/
def processInitialInquiry (env : Env) (issue : Issue) : Pr Outcome :=
  tryCatchPr
    (do
      let analysis ← liftCall (.adapterAnalyze issue.key) (env.analyzeRequirements issue)
      markIssueAsTouchedByClaude env issue.key analysis
      let criteriaIssue ← createDeliverableCriteriaIssue env issue analysis
      liftCall (.trackerLink issue.key criteriaIssue.key)
        (env.linkIssues issue.key criteriaIssue.key)
      Pr.pure (.requirementsAnalyzed issue.key criteriaIssue.key analysis))
    (fun e => do
      tryCatchPr (addCommentPr env issue.key "Claude Analysis Failed") (fun _ => Pr.pure ())
      throwErr e)

/-- `processWebhook(webhookPayload)`: validate, classify, dispatch;
its own catch rethrows with a wrapping message.  Validation
guarantees the issue is present before classification reads it. -/
def processWebhook (env : Env) (payload : WebhookPayload) : Pr Outcome :=
  tryCatchPr
    (if !(isValidWebhookEvent payload) then
      Pr.pure (.ignored "Non-actionable event")
    else
      match payload.issue with
      | none => throwErr "TypeError: issue is not present"
      | some issue =>
        match classifyIssueType issue with
        | .initial_inquiry => processInitialInquiry env issue
        | .deliverable_criteria => processDeliverableCriteria env issue
        | .testing_criteria => processTestingCriteria env issue
        | .ignore => Pr.pure (.ignored "No action required for this issue type"))
    (fun e => throwErr ("Webhook processing failed: " ++ e))

/-- Modelled from the spec: `hasOverrideTag(issue, kind)` of the Stage
Tracker (§4.2).  The orchestrator references `this.hasOverrideLabel` /
`this.removeOverrideLabel`, but no such methods are defined anywhere
in the repository; the spec and the orchestrator's own skip comment
describe the tag as the label `claude-force-<kind>` attached to the
criteria issue. -/
def hasOverrideTagSpec (issue : Issue) (kind : String) : Bool :=
  issue.fields.labels.any (fun l => labelName l == "claude-force-" ++ kind)

/-- One call of `advanceStage` starting from a tracker label set
(Jira stores labels as plain strings once written back). -/
def stepStage (newStage : String) (labels : List String) : List String :=
  updateStageLabels (labels.map Label.str) newStage

/-! ## Claim theorems -/

/-- C1: the testing-criteria verdict `meetsCriteria` is true iff the
overall score is at least 80, the error list has no CRITICAL or HIGH
entry, the requirements-coverage category alone is at least 20, and
the adapter's `readyForDeployment` flag is true; in particular any
CRITICAL or HIGH error forces a false verdict regardless of score. -/
theorem C1_meetsCriteria_iff (ev : Evaluation) :
    ((calculateFinalScore ev).meetsCriteria = true ↔
      ((calculateFinalScore ev).overallScore ≥ 80 ∧
       (∀ e ∈ ev.errors, ¬(e.severity = "CRITICAL" ∨ e.severity = "HIGH")) ∧
       (calculateFinalScore ev).breakdown.requirementsCoverage ≥ 20 ∧
       (calculateFinalScore ev).readyForDeployment = true)) ∧
    (∀ e ∈ ev.errors, (e.severity = "CRITICAL" ∨ e.severity = "HIGH") →
      (calculateFinalScore ev).meetsCriteria = false) := by
  have hmain : (calculateFinalScore ev).meetsCriteria = true ↔
      ((calculateFinalScore ev).overallScore ≥ 80 ∧
       (∀ e ∈ ev.errors, ¬(e.severity = "CRITICAL" ∨ e.severity = "HIGH")) ∧
       (calculateFinalScore ev).breakdown.requirementsCoverage ≥ 20 ∧
       (calculateFinalScore ev).readyForDeployment = true) := by
    simp only [calculateFinalScore, Bool.and_eq_true, decide_eq_true_eq,
      Bool.not_eq_true', Bool.or_eq_false_iff, decide_eq_false_iff_not, not_lt,
      Nat.le_zero, List.length_eq_zero, List.filter_eq_nil_iff, beq_iff_eq]
    constructor
    · rintro ⟨⟨⟨hscore, hcrit, hhigh⟩, hcore⟩, hready⟩
      refine ⟨hscore, fun e he => ?_, hcore, hready⟩
      rintro (h | h)
      · exact hcrit e he h
      · exact hhigh e he h
    · rintro ⟨hscore, herr, hcore, hready⟩
      exact ⟨⟨⟨hscore, fun e he h => herr e he (Or.inl h),
        fun e he h => herr e he (Or.inr h)⟩, hcore⟩, hready⟩
  refine ⟨hmain, fun e he hsev => ?_⟩
  by_contra hne
  have : (calculateFinalScore ev).meetsCriteria = true := by
    cases h : (calculateFinalScore ev).meetsCriteria
    · exact absurd h hne
    · rfl
  exact (hmain.mp this).2.1 e he hsev

/-- C1 witness: a concrete passing evaluation. -/
theorem C1_meetsCriteria_iff_witness :
    (calculateFinalScore
      { requirementsCoverage := ⟨22⟩, qualityCraftsmanship := ⟨20⟩,
        usabilityPracticality := ⟨20⟩, completenessPolish := ⟨20⟩,
        errors := [⟨"MEDIUM", "USABILITY", "minor"⟩],
        overallAssessment := ⟨"fine", true, [], []⟩ }).meetsCriteria = true :=
  (C1_meetsCriteria_iff _).1.mpr (by decide)

def evOverrange : Evaluation :=
  { requirementsCoverage := ⟨30⟩, qualityCraftsmanship := ⟨30⟩,
    usabilityPracticality := ⟨30⟩, completenessPolish := ⟨30⟩,
    errors := [],
    overallAssessment := ⟨"inflated", true, [], []⟩ }

/-- C8 counterexample: `calculateFinalScore` performs no capping — a
parsed evaluation with four scores of 30 yields an overall score of
120, which is neither the capped sum (100) nor within 0–100. -/
theorem C8_counterexample :
    (calculateFinalScore evOverrange).overallScore = 120 ∧
    (min 25 (max 0 (30 : Int))) * 4 = 100 ∧
    ¬((calculateFinalScore evOverrange).overallScore ≤ 100) := by
  decide

/-- C8 amended: the overall score is the plain (uncapped) sum of the
four category scores; it lies in 0–100 whenever each category score
is itself within 0–25 (which the code never enforces). -/
theorem C8_overall_sum (ev : Evaluation) :
    (calculateFinalScore ev).overallScore =
      ev.requirementsCoverage.score + ev.qualityCraftsmanship.score +
      ev.usabilityPracticality.score + ev.completenessPolish.score ∧
    ((0 ≤ ev.requirementsCoverage.score ∧ ev.requirementsCoverage.score ≤ 25 ∧
      0 ≤ ev.qualityCraftsmanship.score ∧ ev.qualityCraftsmanship.score ≤ 25 ∧
      0 ≤ ev.usabilityPracticality.score ∧ ev.usabilityPracticality.score ≤ 25 ∧
      0 ≤ ev.completenessPolish.score ∧ ev.completenessPolish.score ≤ 25) →
      0 ≤ (calculateFinalScore ev).overallScore ∧
      (calculateFinalScore ev).overallScore ≤ 100) := by
  have hsum : (calculateFinalScore ev).overallScore =
      ev.requirementsCoverage.score + ev.qualityCraftsmanship.score +
      ev.usabilityPracticality.score + ev.completenessPolish.score := by
    simp only [calculateFinalScore, List.foldl]
    ring
  refine ⟨hsum, fun h => ?_⟩
  rw [hsum]
  omega

/-- C8 witness: a concrete in-range evaluation summed and bounded. -/
theorem C8_overall_sum_witness :
    (calculateFinalScore
      { requirementsCoverage := ⟨21⟩, qualityCraftsmanship := ⟨22⟩,
        usabilityPracticality := ⟨23⟩, completenessPolish := ⟨24⟩,
        errors := [], overallAssessment := ⟨"ok", true, [], []⟩ }).overallScore = 90 ∧
    0 ≤ (calculateFinalScore
      { requirementsCoverage := ⟨21⟩, qualityCraftsmanship := ⟨22⟩,
        usabilityPracticality := ⟨23⟩, completenessPolish := ⟨24⟩,
        errors := [], overallAssessment := ⟨"ok", true, [], []⟩ }).overallScore ∧
    (calculateFinalScore
      { requirementsCoverage := ⟨21⟩, qualityCraftsmanship := ⟨22⟩,
        usabilityPracticality := ⟨23⟩, completenessPolish := ⟨24⟩,
        errors := [], overallAssessment := ⟨"ok", true, [], []⟩ }).overallScore ≤ 100 := by
  refine ⟨by decide, ?_⟩
  exact (C8_overall_sum _).2 (by decide)

/-- C4: for an issue whose summary contains the CriteriaIssue marker,
classification is `testing_criteria` exactly on status
`Testing Criteria` (taking precedence), `deliverable_criteria` on the
three ready statuses, and `ignore` otherwise. -/
theorem C4_classification (issue : Issue)
    (hmarker : strContains issue.fields.summary "Deliverable Criteria:" = true) :
    classifyIssueType issue =
      (if issue.fields.statusName = "Testing Criteria" then Classification.testing_criteria
       else if issue.fields.statusName = "Ready for Implementation" ∨
              issue.fields.statusName = "In Progress" ∨
              issue.fields.statusName = "Ready for Development" then
         Classification.deliverable_criteria
       else Classification.ignore) := by
  have hm : hasClaudeMarkers issue.fields.summary issue.fields.description = true := by
    refine List.any_eq_true.mpr ⟨"Deliverable Criteria:", ?_, ?_⟩
    · simp [claudeMarkers]
    · simp [hmarker]
  have hready : isReadyForImplementation issue.fields.statusName = true ↔
      (issue.fields.statusName = "Ready for Implementation" ∨
       issue.fields.statusName = "In Progress" ∨
       issue.fields.statusName = "Ready for Development") := by
    simp [isReadyForImplementation, readyStatuses, List.elem_iff]
  unfold classifyIssueType
  simp only [hm, hmarker, Bool.not_true, Bool.false_eq_true, if_false, if_true]
  by_cases hst : issue.fields.statusName = "Testing Criteria"
  · simp [hst]
  · have hst2 : (issue.fields.statusName == "Testing Criteria") = false := by
      simp [hst]
    by_cases hr : issue.fields.statusName = "Ready for Implementation" ∨
        issue.fields.statusName = "In Progress" ∨
        issue.fields.statusName = "Ready for Development"
    · simp [hst, hst2, hready.mpr hr, hr]
    · have : isReadyForImplementation issue.fields.statusName = false := by
        cases h : isReadyForImplementation issue.fields.statusName
        · rfl
        · exact absurd (hready.mp h) hr
      simp [hst, hst2, this, hr]

/-- C4 witness: a marked issue in `Testing Criteria` status classifies
as `testing_criteria`. -/
theorem C4_classification_witness :
    classifyIssueType
      { key := "PCP1-10",
        fields := { summary := "Deliverable Criteria: PCP1-67 - Fix login bug",
                    description := "*Generated by Claude Automation System*",
                    statusName := "Testing Criteria",
                    issuetypeName := "Task", labels := [] } } =
      Classification.testing_criteria := by
  rw [C4_classification _ (by decide)]
  decide

/-- C5: key extraction tries the project-specific, generic, and
permissive summary patterns in order, then the description's
`Original Issue:` line, failing only if all fail; with the spec's
three concrete examples. -/
theorem C5_key_extraction :
    (∀ summary description : String,
      extractOriginalIssueKey summary description =
        ((matchProjectSpecific summary).orElse fun _ =>
          ((matchGeneric summary).orElse fun _ =>
            ((matchPermissive summary).orElse fun _ =>
              matchDescOriginalIssue description)))) ∧
    extractOriginalIssueKey "Deliverable Criteria: PCP1-67 - Fix login bug" "" =
      some "PCP1-67" ∧
    extractOriginalIssueKey "a summary with no recognizable pattern"
      "**Original Issue:** ABC-12" = some "ABC-12" ∧
    extractOriginalIssueKey "a summary with no recognizable pattern"
      "no reference here" = none := by
  refine ⟨fun summary description => ?_, by decide, by decide, by decide⟩
  by_cases hs : summary = ""
  · subst hs
    have h1 : matchProjectSpecific "" = none := by decide
    have h2 : matchGeneric "" = none := by decide
    have h3 : matchPermissive "" = none := by decide
    by_cases hd : description = ""
    · subst hd
      simp [extractOriginalIssueKey, h1, h2, h3, Option.orElse]
      decide
    · have hdb : (description == "") = false := by simp [hd]
      simp [extractOriginalIssueKey, h1, h2, h3, hdb, Option.orElse]
  · have hsb : (summary == "") = false := by simp [hs]
    cases h1 : matchProjectSpecific summary with
    | some k => simp [extractOriginalIssueKey, hsb, h1, Option.orElse]
    | none =>
      cases h2 : matchGeneric summary with
      | some k => simp [extractOriginalIssueKey, hsb, h1, h2, Option.orElse]
      | none =>
        cases h3 : matchPermissive summary with
        | some k => simp [extractOriginalIssueKey, hsb, h1, h2, h3, Option.orElse]
        | none =>
          by_cases hd : description = ""
          · subst hd
            simp [extractOriginalIssueKey, hsb, h1, h2, h3, Option.orElse]
            decide
          · have hdb : (description == "") = false := by simp [hd]
            simp [extractOriginalIssueKey, hsb, h1, h2, h3, hdb, Option.orElse]

theorem labelName_str (x : String) : labelName (Label.str x) = x := rfl

theorem filter_map_str (M : List String) :
    ((M.map Label.str).filter
        (fun l => !(stageLabels.contains (labelName l)))).map labelName =
      M.filter (fun x => !(stageLabels.contains x)) := by
  induction M with
  | nil => rfl
  | cons a as ih =>
    by_cases hpa : (!(stageLabels.contains a)) = true
    · simp only [List.map_cons, List.filter_cons, labelName_str, hpa, if_true]
      rw [ih]
    · simp only [List.map_cons, List.filter_cons, labelName_str, hpa]
      simpa using ih

theorem updateStageLabels_eq (L : List Label) (s : String) :
    updateStageLabels L s =
      (L.filter (fun l => !(stageLabels.contains (labelName l)))).map labelName ++
        ["claude-stage-" ++ s] := rfl

theorem stepStage_eq (M : List String) (s : String) :
    stepStage s M =
      M.filter (fun x => !(stageLabels.contains x)) ++ ["claude-stage-" ++ s] := by
  show (((M.map Label.str).filter
      (fun l => !(stageLabels.contains (labelName l)))).map labelName) ++
      ["claude-stage-" ++ s] =
    M.filter (fun x => !(stageLabels.contains x)) ++ ["claude-stage-" ++ s]
  rw [filter_map_str]

/-- The written-back label list is a fixed point of a further
`advanceStage` call with the same stage. -/
theorem stepStage_fixed (L : List Label) (newStage : String)
    (hmem : stageLabels.contains ("claude-stage-" ++ newStage) = true) :
    stepStage newStage (updateStageLabels L newStage) = updateStageLabels L newStage := by
  have hq : ∀ x ∈ (L.filter (fun l => !(stageLabels.contains (labelName l)))).map labelName,
      (!(stageLabels.contains x)) = true := by
    intro x hx
    obtain ⟨l, hl, rfl⟩ := List.mem_map.mp hx
    exact (List.mem_filter.mp hl).2
  rw [updateStageLabels_eq, stepStage_eq, List.filter_append, List.filter_eq_self.mpr hq]
  have h2 : (["claude-stage-" ++ newStage]).filter (fun x => !(stageLabels.contains x)) =
      [] := by
    simp only [List.filter_cons, List.filter_nil, hmem, Bool.not_true,
      Bool.false_eq_true, if_false]
  rw [h2, List.append_nil]

/-- C6: stage advancement is idempotent — after the first call with a
given target stage, every further call with the same stage leaves the
label set unchanged; each call leaves exactly the target stage tag
among the stage tags and preserves all non-stage labels. -/
theorem C6_stage_idempotent (L : List Label) (newStage : String)
    (h : newStage ∈ ["analyzed", "implemented", "tested"]) :
    (∀ n : Nat, (stepStage newStage)^[n] (updateStageLabels L newStage) =
      updateStageLabels L newStage) ∧
    (updateStageLabels L newStage).filter (fun l => stageLabels.contains l) =
      ["claude-stage-" ++ newStage] ∧
    (updateStageLabels L newStage).filter (fun l => !(stageLabels.contains l)) =
      (L.filter (fun l => !(stageLabels.contains (labelName l)))).map labelName := by
  have hmem : stageLabels.contains ("claude-stage-" ++ newStage) = true := by
    simp only [List.mem_cons, List.mem_singleton, List.not_mem_nil, or_false] at h
    rcases h with rfl | rfl | rfl <;> decide
  have hq : ∀ x ∈ (L.filter (fun l => !(stageLabels.contains (labelName l)))).map labelName,
      (!(stageLabels.contains x)) = true := by
    intro x hx
    obtain ⟨l, hl, rfl⟩ := List.mem_map.mp hx
    exact (List.mem_filter.mp hl).2
  refine ⟨Function.iterate_fixed (stepStage_fixed L newStage hmem), ?_, ?_⟩
  · rw [updateStageLabels_eq, List.filter_append]
    have h1 : ((L.filter (fun l => !(stageLabels.contains (labelName l)))).map
        labelName).filter (fun l => stageLabels.contains l) = [] := by
      refine List.filter_eq_nil_iff.mpr ?_
      intro x hx
      have hx2 := hq x hx
      simp only [Bool.not_eq_true'] at hx2
      simp only [hx2]
      exact Bool.false_ne_true
    rw [h1]
    simp only [List.nil_append, List.filter_cons, List.filter_nil, hmem, if_true]
  · rw [updateStageLabels_eq, List.filter_append, List.filter_eq_self.mpr hq]
    have h2 : (["claude-stage-" ++ newStage]).filter
        (fun x => !(stageLabels.contains x)) = [] := by
      simp only [List.filter_cons, List.filter_nil, hmem, Bool.not_true,
        Bool.false_eq_true, if_false]
    rw [h2, List.append_nil]

/-- C6 witness: two further `tested` advancements on top of one leave
the label set fixed. -/
theorem C6_stage_idempotent_witness :
    (stepStage "tested")^[2]
      (updateStageLabels [Label.obj "keep-me", Label.str "claude-stage-analyzed"] "tested") =
    updateStageLabels [Label.obj "keep-me", Label.str "claude-stage-analyzed"] "tested" :=
  (C6_stage_idempotent _ "tested" (by decide)).1 2

theorem dropWhile_ws_idem (l : List Char) :
    (l.dropWhile Char.isWhitespace).dropWhile Char.isWhitespace =
      l.dropWhile Char.isWhitespace := by
  induction l with
  | nil => rfl
  | cons a l ih =>
    by_cases ha : a.isWhitespace = true
    · simp [List.dropWhile_cons, ha, ih]
    · simp [List.dropWhile_cons, ha]

theorem trimL_dropWhile (l : List Char) :
    trimL (l.dropWhile Char.isWhitespace) = trimL l := by
  unfold trimL
  rw [dropWhile_ws_idem]

theorem dropWhile_ws_append_single (l : List Char) (c : Char)
    (hc : c.isWhitespace = false) :
    ∃ t, (l ++ [c]).dropWhile Char.isWhitespace = t ++ [c] := by
  induction l with
  | nil => exact ⟨[], by simp [List.dropWhile_cons, hc]⟩
  | cons a l ih =>
    by_cases ha : a.isWhitespace = true
    · simpa [List.dropWhile_cons, ha] using ih
    · exact ⟨a :: l, by simp [List.dropWhile_cons, ha]⟩

/-- A line starting with `•` still starts with `•` after trimming. -/
theorem trim_bullet_head (cs : List Char) :
    startsWithL (trimL ('•' :: cs)) ['•'] = true := by
  have hbw : ('•').isWhitespace = false := by decide
  unfold trimL
  rw [List.dropWhile_cons]
  simp only [hbw, Bool.false_eq_true, if_false, List.reverse_cons]
  obtain ⟨t, ht⟩ := dropWhile_ws_append_single cs.reverse '•' hbw
  rw [ht, List.reverse_append]
  simp [startsWithL]

theorem sizeGood_asString (l : List Char) : (List.asString l).length = l.length := rfl

def bulletAgreeable (line : List Char) : Prop :=
  (startsWithL line ['•'] = true ∧ (trimL (stripLeadingBullet line)).length > 0) ∨
  (startsWithL (trimL line) ['•'] = false ∧ startsWithL (trimL line) ['-'] = false)

instance (line : List Char) : Decidable (bulletAgreeable line) := by
  unfold bulletAgreeable
  infer_instance

/-- On agreeable lines the two per-line bullet pipelines coincide. -/
theorem pipelinesAgree (ls : List (List Char))
    (h : ∀ l ∈ ls, bulletAgreeable l) :
    (ls.filter (fun line => startsWithL (trimL line) ['•'])).map
      (fun line => (trimL (replaceFirstBullet line)).asString) =
    ((ls.filter (fun line => startsWithL (trimL line) ['•'] ||
        startsWithL (trimL line) ['-'])).map
      (fun line => (trimL (stripLeadingBullet line)).asString)).filter
      (fun item => item.length > 0) := by
  induction ls with
  | nil => rfl
  | cons l ls ih =>
    have hl := h l (List.mem_cons_self l ls)
    have hrest : ∀ x ∈ ls, bulletAgreeable x := fun x hx => h x (List.mem_cons_of_mem l hx)
    rcases hl with ⟨hstart, hlen⟩ | ⟨hb, hd⟩
    · obtain ⟨c, cs, rfl⟩ : ∃ c cs, l = c :: cs := by
        cases l with
        | nil => simp [startsWithL] at hstart
        | cons c cs => exact ⟨c, cs, rfl⟩
      have hc : c = '•' := by
        have := hstart
        simp only [startsWithL, Bool.and_eq_true, beq_iff_eq] at this
        exact this.1
      subst hc
      have htrim : startsWithL (trimL ('•' :: cs)) ['•'] = true := trim_bullet_head cs
      have hstrip : stripLeadingBullet ('•' :: cs) = cs.dropWhile Char.isWhitespace := by
        simp [stripLeadingBullet]
      have horch : replaceFirstBullet ('•' :: cs) = cs := by
        simp [replaceFirstBullet]
      have hitem : trimL (stripLeadingBullet ('•' :: cs)) = trimL cs := by
        rw [hstrip, trimL_dropWhile]
      have hlen2 : ((trimL (stripLeadingBullet ('•' :: cs))).asString.length > 0) := by
        rw [sizeGood_asString]
        exact hlen
      simp only [List.filter_cons, htrim, Bool.true_or, if_true, List.map_cons,
        List.filter_cons, decide_eq_true_eq, hlen2, if_true]
      rw [horch, hitem, ih hrest]
    · simp only [List.filter_cons, hb, hd, Bool.or_self, Bool.false_eq_true, if_false]
      exact ih hrest

def c10Text : String := "## Functional Requirements\n- item one\n"

/-- C10 counterexample: on a `-` bulleted section the orchestrator's
`extractSection` returns nothing while the evaluator's returns the
item — the two functions are not extensionally equal. -/
theorem C10_counterexample :
    extractSection c10Text "Functional Requirements" = [] ∧
    evalExtractSection c10Text "Functional Requirements" = ["item one"] ∧
    extractSection c10Text "Functional Requirements" ≠
      evalExtractSection c10Text "Functional Requirements" := by
  refine ⟨by decide, by decide, ?_⟩
  intro h
  rw [show extractSection c10Text "Functional Requirements" = [] from by decide,
    show evalExtractSection c10Text "Functional Requirements" = ["item one"] from by decide]
    at h
  exact List.noConfusion h

/-- C10 amended: the two `extractSection` copies agree on every text
whose matched section body consists of lines that either carry a `•`
bullet at the very start of the line with content left after
stripping it, or are not bullet lines at all (trimmed form starting
with neither `•` nor `-`); they differ in general (`-` bullets,
indented `•` bullets, empty items). -/
theorem C10_extractSection_agree (text name : String)
    (h : ∀ line ∈ splitOnNl ((extractSectionBody text name).getD []),
      bulletAgreeable line) :
    extractSection text name = evalExtractSection text name := by
  unfold extractSection evalExtractSection
  cases hb : extractSectionBody text name with
  | none => rfl
  | some body =>
    rw [hb] at h
    simp only [Option.getD_some] at h
    exact pipelinesAgree _ h

/-- C10 witness: on a well-formed `•` bulleted section both
extractors produce the same items. -/
theorem C10_extractSection_agree_witness :
    extractSection "## Acceptance Criteria\n• alpha\n• beta\n\n## Definition of Done\n• done\n"
      "Acceptance Criteria" =
    evalExtractSection "## Acceptance Criteria\n• alpha\n• beta\n\n## Definition of Done\n• done\n"
      "Acceptance Criteria" :=
  C10_extractSection_agree _ _ (by decide)

theorem prBindEq (x : Pr α) (f : α → Pr β) : x >>= f = Pr.bind x f := rfl

theorem prPureEq (a : α) : (pure a : Pr α) = Pr.pure a := rfl

/-- An all-succeeding external world. -/
def dummyIssue : Issue :=
  { key := "DUMMY-1",
    fields := { summary := "", description := "", statusName := "",
                issuetypeName := "", labels := [] } }

def dummyAnalysis : AnalysisResult :=
  { deliveryCriteria := ⟨[], [], [], [], []⟩
    validationTests := ⟨[], [], [], []⟩
    technicalApproach := ⟨"", [], []⟩
    estimatedEffort := ⟨5, 16, "Medium"⟩ }

def dummyImplementationResult : ImplementationResult :=
  { implementation := { type := "code", title := "Solution" } }

def dummyArtifacts : ArtifactsResult :=
  { directory := "work-items", files := ["solution.js"], implementationType := "code" }

def dummyEvaluation : Evaluation :=
  { requirementsCoverage := ⟨22⟩, qualityCraftsmanship := ⟨20⟩,
    usabilityPracticality := ⟨20⟩, completenessPolish := ⟨20⟩,
    errors := [], overallAssessment := ⟨"fine", true, [], []⟩ }

def envOk : Env :=
  { now := "2025-01-01T00:00:00.000Z"
    getIssue := fun _ => .ok dummyIssue
    updateIssue := fun _ _ => .ok ()
    addComment := fun _ _ => .ok ()
    createIssue := fun _ _ _ => .ok dummyIssue
    linkIssues := fun _ _ => .ok ()
    getAvailableTransitions := fun _ => .ok []
    transitionIssue := fun _ _ => .ok ()
    analyzeRequirements := fun _ => .ok dummyAnalysis
    generateImplementation := fun _ _ _ => .ok dummyImplementationResult
    createArtifacts := fun _ _ => .ok dummyArtifacts
    loadImplementation := fun _ => .ok dummyImplementationResult
    loadArtifacts := fun _ => .ok []
    claudeEvaluate := fun _ _ _ _ _ => .ok dummyEvaluation
    saveEvaluation := fun _ _ => .ok () }

/-- C7: a webhook event with an unsupported event-type or a missing
issue or missing key is ignored with an empty effect trace — no
tracker, adapter, or artifact call is made. -/
theorem C7_invalid_ignored (env : Env) (p : WebhookPayload)
    (h : supportedEvents.contains p.webhookEvent = false ∨ p.issue = none ∨
         (∃ issue, p.issue = some issue ∧ issue.key = "")) :
    processWebhook env p [] = (Except.ok (Outcome.ignored "Non-actionable event"), []) := by
  have hvalid : isValidWebhookEvent p = false := by
    unfold isValidWebhookEvent
    rcases h with h | h | ⟨issue, hi, hk⟩
    · simp only [h, Bool.not_false, if_true]
    · rcases hc : supportedEvents.contains p.webhookEvent <;> simp [h]
    · rcases hc : supportedEvents.contains p.webhookEvent <;> simp [hi, hk]
  unfold processWebhook tryCatchPr
  simp [hvalid, Pr.pure]

def invalidPayload : WebhookPayload :=
  { webhookEvent := "jira:issue_deleted", issue := none, changelog := none }

/-- C7 witness: a deleted-issue event is ignored with no calls. -/
theorem C7_invalid_ignored_witness :
    processWebhook envOk invalidPayload [] =
      (Except.ok (Outcome.ignored "Non-actionable event"), []) :=
  C7_invalid_ignored envOk invalidPayload (Or.inl (by decide))

/-- C2: a valid criteria issue whose derived stage is `implemented`
or `tested`, with no `reimplement` override tag, is skipped: the
phase posts one explanatory comment and makes no other external call
— in particular no implementation-adapter call. -/
theorem C2_skip_guard (env : Env) (issue : Issue) (originalKey : String)
    (hval : validateClaudeGeneratedCriteria issue = true)
    (hext : extractOriginalIssueKey issue.fields.summary issue.fields.description =
      some originalKey)
    (hstage : getHighestStageCompleted issue = "implemented" ∨
      getHighestStageCompleted issue = "tested")
    (hnotag : hasOverrideTagSpec issue "reimplement" = false)
    (hcomment : env.addComment issue.key "Implementation Skipped" = Except.ok ()) :
    processDeliverableCriteria env issue [] =
      (Except.ok (Outcome.skippedImplementation (getHighestStageCompleted issue)
        issue.key originalKey),
       [Effect.trackerComment issue.key "Implementation Skipped"]) := by
  have hcond : ((getHighestStageCompleted issue == "implemented") ||
      (getHighestStageCompleted issue == "tested")) = true := by
    rcases hstage with h | h <;> simp [h]
  unfold processDeliverableCriteria processDeliverableCriteriaBody tryCatchPr
  rw [hext]
  simp [hval, hcond, prBindEq, Pr.bind, addCommentPr, liftCall, hcomment, Pr.pure]

def issueC2 : Issue :=
  { key := "PCP1-10",
    fields := { summary := "Deliverable Criteria: PCP1-67 - Fix login bug",
                description := "*Generated by Claude Automation System*",
                statusName := "Ready for Implementation",
                issuetypeName := "Task",
                labels := [Label.obj "claude-stage-implemented"] } }

/-- C2 witness: a concrete already-implemented criteria issue is
skipped with exactly one comment call. -/
theorem C2_skip_guard_witness :
    processDeliverableCriteria envOk issueC2 [] =
      (Except.ok (Outcome.skippedImplementation (getHighestStageCompleted issueC2)
        issueC2.key "PCP1-67"),
       [Effect.trackerComment issueC2.key "Implementation Skipped"]) :=
  C2_skip_guard envOk issueC2 "PCP1-67" (by decide) (by decide)
    (Or.inl (by decide)) (by decide) rfl

def issueC3 : Issue :=
  { key := "PCP1-10",
    fields := { summary := "Deliverable Criteria: PCP1-67 - Fix login bug",
                description := "*Generated by Claude Automation System*",
                statusName := "Ready for Implementation",
                issuetypeName := "Task",
                labels := [Label.obj "claude-stage-implemented",
                           Label.obj "claude-force-reimplement"] } }

/-- C3 (code bug evidence): with the `claude-force-reimplement` label
present — the very label the orchestrator's own skip comment tells
the operator to add — the phase still skips, never invokes the
implementation adapter, and never removes the label (no tracker
update appears in the trace): `hasOverrideLabel`/`removeOverrideLabel`
are referenced but defined nowhere, so the override guard is dead. -/
theorem C3_override_dead :
    hasOverrideTagSpec issueC3 "reimplement" = true ∧
    getHighestStageCompleted issueC3 = "implemented" ∧
    processDeliverableCriteria envOk issueC3 [] =
      (Except.ok (Outcome.skippedImplementation "implemented" "PCP1-10" "PCP1-67"),
       [Effect.trackerComment "PCP1-10" "Implementation Skipped"]) :=
  ⟨by decide, by decide, rfl⟩

/-- A computation that can never surface a thrown exception. -/
def NoThrow (p : Pr α) : Prop :=
  ∀ es, ∃ a es2, p es = (Except.ok a, es2)

/-- A try/catch whose handler never throws never throws, whatever the
body does. -/
theorem tryCatchPr_noThrow (x : Pr α) (handler : String → Pr α)
    (h : ∀ e, NoThrow (handler e)) : NoThrow (tryCatchPr x handler) := by
  intro es
  unfold tryCatchPr
  rcases hx : x es with ⟨r, es1⟩
  cases r with
  | ok a => exact ⟨a, es1, rfl⟩
  | error e =>
    obtain ⟨a, es2, h2⟩ := h e es1
    exact ⟨a, es2, h2⟩

/-- C9 amended: provided the tracker accepts the error-report
comments, the deliverable-criteria phase never surfaces an exception
— whatever any other sub-step does — and a body failure is surfaced
as a `system_error` outcome after one generic error comment.  (The
unamended claim fails: a failing comment call in the top-level catch
itself propagates, see the counterexample.) -/
theorem C9_no_escape (env : Env) (issue : Issue)
    (hcomment : ∀ key title, env.addComment key title = Except.ok ()) :
    (∃ out trace, processDeliverableCriteria env issue [] = (Except.ok out, trace)) ∧
    (∀ e es, processDeliverableCriteriaBody env issue [] = (Except.error e, es) →
      processDeliverableCriteria env issue [] =
        (Except.ok (Outcome.systemError issue.key e),
         es ++ [Effect.trackerComment issue.key "Automation System Error"])) := by
  constructor
  · unfold processDeliverableCriteria
    refine tryCatchPr_noThrow _ _ (fun e => ?_) []
    intro es
    exact ⟨Outcome.systemError issue.key e,
      es ++ [Effect.trackerComment issue.key "Automation System Error"],
      by simp [prBindEq, Pr.bind, addCommentPr, liftCall, hcomment, Pr.pure]⟩
  · intro e es hbody
    unfold processDeliverableCriteria tryCatchPr
    rw [hbody]
    simp [prBindEq, Pr.bind, addCommentPr, liftCall, hcomment, Pr.pure]

def issueNotClaude : Issue :=
  { key := "K-1",
    fields := { summary := "hello", description := "", statusName := "To Do",
                issuetypeName := "Task", labels := [] } }

def envFailComment : Env :=
  { envOk with addComment := fun _ _ => .error "HTTP 500 from tracker" }

/-- C9 counterexample: when the tracker rejects the generic error
comment, the exception escapes `processDeliverableCriteria` (the JS
top-level catch awaits `addComment` unguarded), so the phase does not
always return a structured outcome. -/
theorem C9_counterexample :
    processDeliverableCriteria envFailComment issueNotClaude [] =
      (Except.error "HTTP 500 from tracker",
       [Effect.trackerComment "K-1" "Automation System Error"]) := rfl

/-- C9 witness: with comments accepted, even a non-Claude-generated
issue yields a structured outcome instead of an exception. -/
theorem C9_no_escape_witness :
    ∃ out trace, processDeliverableCriteria envOk issueNotClaude [] =
      (Except.ok out, trace) :=
  (C9_no_escape envOk issueNotClaude (fun _ _ => rfl)).1

end JiraClaude
